import Mathlib

/-!
Verification development for the Trusted-Properties marketplace client
(`src/client/trustedproperties.ts`).  The TypeScript source is shallowly
embedded below: public keys are naturals below 2^256 (the 32-byte value of a
`PublicKey`), byte buffers are `List Nat` with every element below 256, and
each fallible JavaScript operation is an `Except` value.  Definitions follow
the source function by function; JavaScript runtime behaviour (Node `Buffer`
writes, `bn.js` conversions, borsh-js serialization) is modelled where the
source relies on it.
-/

namespace TrustedProperties

/-! ## Little-endian / big-endian byte encodings

`bn.js`'s `toArray(endian, length)` zero-pads the byte array of the number to
`length` **bytes** (not bits); `PublicKey.toBuffer()` is the 32-byte
big-endian representation of the key value. -/

/-- `toBytesLE n v` is the `n`-byte little-endian encoding of `v`
(the value is taken modulo `256 ^ n`, which is exact for all uses below). -/
def toBytesLE : Nat → Nat → List Nat
  | 0, _ => []
  | n + 1, v => v % 256 :: toBytesLE n (v / 256)

/-- The 32-byte big-endian buffer of a `PublicKey` (`toBuffer`/`toBytes`). -/
def toBytesBE (n v : Nat) : List Nat := (toBytesLE n v).reverse

/-- Read a little-endian byte list back as a natural number. -/
def ofBytesLE (l : List Nat) : Nat := l.foldr (fun d a => a * 256 + d) 0

/-! ## Base58 (`bs58.encode`, used by `PublicKey.toString`/`toBase58`)

A 32-byte buffer is encoded by emitting one `'1'` per leading zero byte and
then the base-58 digit string of the remaining value, most significant digit
first, using the Bitcoin alphabet. -/

/-- The Bitcoin base58 alphabet. -/
def B58ALPHABET : List Char :=
  ("123456789ABCDEFGHJKLMNPQRSTUVWXYZabcdefghijkmnopqrstuvwxyz").data

/-- Character for a base-58 digit. -/
def b58digit (d : Nat) : Char := B58ALPHABET.getD d '?'

/-- Base-58 digits of `v`, most significant first (`fuel`-bounded; 44 digits
suffice for every value below `2 ^ 256`). -/
def b58digitsAux : Nat → Nat → List Nat
  | 0, _ => []
  | fuel + 1, v => if v = 0 then [] else b58digitsAux fuel (v / 58) ++ [v % 58]

def b58digits (v : Nat) : List Nat := b58digitsAux 44 v

/-- Number of bytes in the minimal big-endian representation of `v`
(`fuel`-bounded; 32 bytes suffice below `2 ^ 256`). -/
def byteLenAux : Nat → Nat → Nat
  | 0, _ => 0
  | fuel + 1, v => if v = 0 then 0 else byteLenAux fuel (v / 256) + 1

def byteLen (v : Nat) : Nat := byteLenAux 32 v

/-- Character list of `PublicKey.toString()` (= `toBase58()`): one `'1'` per
leading zero byte of the 32-byte buffer, then the base-58 digits. -/
def pubkeyChars (v : Nat) : List Char :=
  List.replicate (32 - byteLen v) '1' ++ (b58digits v).map b58digit

/-- `PublicKey.toString()` as a Lean string. -/
def pubkeyStr (v : Nat) : String := ⟨pubkeyChars v⟩

/-- Value of a base-58 digit string (used to state that encoding is lossless,
and to embed the base58-encoded string constants of the source). -/
def ofD58 (l : List Nat) : Nat := l.foldl (fun a d => a * 58 + d) 0

/-- Decode a base58 string to its numeric value (`bs58.decode` composed with
big-endian reading; used for the hard-coded key constants of the source). -/
def b58ToNat (s : String) : Nat :=
  s.data.foldl (fun a c => a * 58 + (B58ALPHABET.indexOf c)) 0

/-! ## The agreement seed (`checkProgram`, line 310)

`const AGREEMENT_SEED = 'agreement' + ownerPubkey.toString() + tenantPubkey.toString();` -/

/-- The seed string for the agreement account: the literal tag `'agreement'`
followed by the owner's and the tenant's base58 string forms, concatenated
with no separator (JavaScript string `+`). -/
def AGREEMENT_SEED (ownerK tenantK : Nat) : String :=
  "agreement" ++ pubkeyStr ownerK ++ pubkeyStr tenantK

/-! ## UTF-8 (Node `Buffer.from(str, 'utf8')` / `buf.toString('utf8')`) -/

/-- UTF-8 bytes of one character. -/
def utf8EncodeCharNat (c : Char) : List Nat :=
  let n := c.toNat
  if n < 128 then [n]
  else if n < 2048 then [192 + n / 64, 128 + n % 64]
  else if n < 65536 then [224 + n / 4096, 128 + n / 64 % 64, 128 + n % 64]
  else [240 + n / 262144, 128 + n / 4096 % 64, 128 + n / 64 % 64, 128 + n % 64]

/-- UTF-8 byte list of a string. -/
def utf8Bytes (s : String) : List Nat :=
  s.data.foldr (fun c acc => utf8EncodeCharNat c ++ acc) []

/-- UTF-8 decoding, fuel-bounded (fuel = remaining byte count).  Exact on
well-formed UTF-8; malformed sequences become U+FFFD, approximating Node's
replacement behaviour (no theorem below depends on malformed non-ASCII
input). -/
def utf8DecodeAux : Nat → List Nat → List Char
  | 0, _ => []
  | _ + 1, [] => []
  | fuel + 1, b :: rest =>
    if b < 128 then Char.ofNat b :: utf8DecodeAux fuel rest
    else if 194 ≤ b ∧ b < 224 then
      match rest with
      | b2 :: rest2 =>
        if 128 ≤ b2 ∧ b2 < 192 then
          Char.ofNat ((b - 192) * 64 + (b2 - 128)) :: utf8DecodeAux fuel rest2
        else Char.ofNat 65533 :: utf8DecodeAux fuel rest
      | [] => [Char.ofNat 65533]
    else if 224 ≤ b ∧ b < 240 then
      match rest with
      | b2 :: b3 :: rest3 =>
        if 128 ≤ b2 ∧ b2 < 192 ∧ 128 ≤ b3 ∧ b3 < 192 then
          let n := (b - 224) * 4096 + (b2 - 128) * 64 + (b3 - 128)
          (if 2048 ≤ n ∧ ¬(55296 ≤ n ∧ n ≤ 57343) then Char.ofNat n
           else Char.ofNat 65533) :: utf8DecodeAux fuel rest3
        else Char.ofNat 65533 :: utf8DecodeAux fuel rest
      | _ => [Char.ofNat 65533]
    else if 240 ≤ b ∧ b < 245 then
      match rest with
      | b2 :: b3 :: b4 :: rest4 =>
        if 128 ≤ b2 ∧ b2 < 192 ∧ 128 ≤ b3 ∧ b3 < 192 ∧ 128 ≤ b4 ∧ b4 < 192 then
          let n := (b - 240) * 262144 + (b2 - 128) * 4096 + (b3 - 128) * 64 + (b4 - 128)
          (if 65536 ≤ n ∧ n < 1114112 then Char.ofNat n else Char.ofNat 65533)
            :: utf8DecodeAux fuel rest4
        else Char.ofNat 65533 :: utf8DecodeAux fuel rest
      | _ => [Char.ofNat 65533]
    else Char.ofNat 65533 :: utf8DecodeAux fuel rest

/-- `buf.toString('utf8')` for a byte list. -/
def utf8DecodeBytes (l : List Nat) : String := ⟨utf8DecodeAux l.length l⟩

/-! ## JavaScript dynamic values and the `AgreementAccount` class

`trustedproperties.ts`, lines 83–125: the class holds a `number` status, three
`PublicKey` identities, `number` amounts and date fields; `new
AgreementAccount()` keeps the zero-valued field initializers. -/

/-- A JavaScript value as it can appear in an `AgreementAccount` field or come
out of the borsh reader: a number, a string, a `PublicKey` object, a `BN`
object (borsh's `u64` reads), or `undefined`. -/
inductive JsValue where
  | num : Nat → JsValue
  | str : String → JsValue
  | pubkey : Nat → JsValue
  | bn : Nat → JsValue
  | undefined : JsValue
deriving DecidableEq

/-- The `AgreementAccount` class.  Field defaults are the class initializers
(`0` / `new PublicKey(0)`). -/
structure AgreementAccount where
  status : JsValue := .num 0
  owner_pubkey : JsValue := .pubkey 0
  tenant_pubkey : JsValue := .pubkey 0
  security_escrow_pubkey : JsValue := .pubkey 0
  security_deposit : JsValue := .num 0
  rent_amount : JsValue := .num 0
  duration : JsValue := .num 0
  remaining_payments : JsValue := .num 0
  start_month : JsValue := .num 0
  start_year : JsValue := .num 0
  duration_extension_request : JsValue := .num 0
deriving DecidableEq

/-- `new AgreementAccount()` — the canonical zero-valued instance. -/
def zeroAgreement : AgreementAccount := {}

/-- JavaScript property lookup `obj[fieldName]` on an `AgreementAccount`:
any name that is not one of the class's eleven properties yields
`undefined` — in particular the schema's misspelled first field
`'pub status'`. -/
def AgreementAccount.getField (a : AgreementAccount) : String → JsValue
  | "status" => a.status
  | "owner_pubkey" => a.owner_pubkey
  | "tenant_pubkey" => a.tenant_pubkey
  | "security_escrow_pubkey" => a.security_escrow_pubkey
  | "security_deposit" => a.security_deposit
  | "rent_amount" => a.rent_amount
  | "duration" => a.duration
  | "remaining_payments" => a.remaining_payments
  | "start_month" => a.start_month
  | "start_year" => a.start_year
  | "duration_extension_request" => a.duration_extension_request
  | _ => .undefined

/-- A field holds a value of the type the class declares for it. -/
def ValidAgreement (a : AgreementAccount) : Prop :=
  (∃ n, a.status = .num n) ∧ (∃ k, a.owner_pubkey = .pubkey k) ∧
  (∃ k, a.tenant_pubkey = .pubkey k) ∧ (∃ k, a.security_escrow_pubkey = .pubkey k) ∧
  (∃ n, a.security_deposit = .num n) ∧ (∃ n, a.rent_amount = .num n) ∧
  (∃ n, a.duration = .num n) ∧ (∃ n, a.remaining_payments = .num n) ∧
  (∃ n, a.start_month = .num n) ∧ (∃ n, a.start_year = .num n) ∧
  (∃ n, a.duration_extension_request = .num n)

/-! ## The borsh schema (`AgreementSchema`, lines 130–144)

The first field name is the string `'pub status'` (a `pub status` slip copied
from the Rust struct), and the three identity fields are declared `'string'`
although the class stores `PublicKey` objects. -/

inductive BorshFieldType where
  | u8 | u16 | u64 | string
deriving DecidableEq

/-- The field list of `AgreementSchema`, in source order. -/
def AgreementSchemaFields : List (String × BorshFieldType) :=
  [("pub status", .u8), ("owner_pubkey", .string), ("tenant_pubkey", .string),
   ("security_escrow_pubkey", .string), ("security_deposit", .u64),
   ("rent_amount", .u64), ("duration", .u8), ("remaining_payments", .u8),
   ("start_month", .u8), ("start_year", .u16), ("duration_extension_request", .u8)]

/-- Error kinds raised while (de)serializing: Node `TypeError`
(`Buffer.from` on a non-string), Node `ERR_OUT_OF_RANGE`, a `bn.js`
assertion (`new BN(undefined)`), borsh's end-of-buffer error, and borsh's
trailing-bytes error. -/
inductive JsError where
  | typeError | rangeError | bnAssert | endOfBuffer | trailingBytes
deriving DecidableEq

/-- Numeric coercion `+value` as Node's `Buffer.writeUIntN` applies it;
`none` models `NaN`.  (`undefined` coerces to `NaN`; a `PublicKey` or a
non-numeric string also coerces to `NaN` — no string or `PublicKey` ever
reaches a numeric writer in this schema.) -/
def jsPlus : JsValue → Option Nat
  | .num n => some n
  | .bn n => some n
  | _ => none

/-- borsh `writeU8` = Node `buf.writeUInt8`: `NaN` passes the range check
(every comparison with `NaN` is false) and is stored as byte `0`; an
in-range number is stored; an out-of-range number throws. -/
def writeU8 (v : JsValue) : Except JsError (List Nat) :=
  match jsPlus v with
  | none => .ok [0]
  | some n => if n ≤ 255 then .ok [n] else .error .rangeError

/-- borsh `writeU16` = Node `buf.writeUInt16LE` (same `NaN` quirk). -/
def writeU16 (v : JsValue) : Except JsError (List Nat) :=
  match jsPlus v with
  | none => .ok [0, 0]
  | some n => if n ≤ 65535 then .ok (toBytesLE 2 n) else .error .rangeError

/-- borsh `writeU64`: `Buffer.from(new BN(value).toArray('le', 8))`;
`new BN(undefined)` (or of any non-number) fails a `bn.js` assertion, and a
value needing more than 8 bytes makes `toArray` throw. -/
def writeU64 (v : JsValue) : Except JsError (List Nat) :=
  match v with
  | .num n => if n < 256 ^ 8 then .ok (toBytesLE 8 n) else .error .bnAssert
  | .bn n => if n < 256 ^ 8 then .ok (toBytesLE 8 n) else .error .bnAssert
  | _ => .error .bnAssert

/-- borsh `writeString`: `Buffer.from(str, 'utf8')` throws a `TypeError`
unless the value is an actual string; a string is written as a 4-byte
little-endian byte length followed by its UTF-8 bytes. -/
def writeString (v : JsValue) : Except JsError (List Nat) :=
  match v with
  | .str s => .ok (toBytesLE 4 (utf8Bytes s).length ++ utf8Bytes s)
  | _ => .error .typeError

/-- `serializeField` dispatch on the declared field type. -/
def serializeField : BorshFieldType → JsValue → Except JsError (List Nat)
  | .u8, v => writeU8 v
  | .u16, v => writeU16 v
  | .u64, v => writeU64 v
  | .string, v => writeString v

/-- `borsh.serialize(AgreementSchema, a)`: serialize each schema field of the
object in order, concatenating the bytes; the first thrown error aborts. -/
def serializeAgreement (a : AgreementAccount) : Except JsError (List Nat) :=
  AgreementSchemaFields.foldl
    (fun acc fld =>
      acc.bind fun bs => (serializeField fld.2 (a.getField fld.1)).map (bs ++ ·))
    (.ok [])

/-- `AGREEMENT_SIZE` (lines 149–153): the length of the canonical zero-valued
encoding.  The serialization itself throws, so the module-level constant is
an error value — the commented-out `// 120` in the source never materializes. -/
def AGREEMENT_SIZE : Except JsError Nat := (serializeAgreement zeroAgreement).map List.length

/-! ## The borsh reader (`borsh.deserialize`)

The reader consumes the buffer field by field; running past the end throws
borsh's end-of-buffer error, and (in borsh ≥ 0.4) bytes left over after the
struct throw a trailing-bytes error.  The parsed field map is then passed to
the class constructor.  Modelled with the remaining byte list threaded
through each read. -/

/-- Take exactly `n` bytes off the front, or fail like a read past the end. -/
def readBytesN : Nat → List Nat → Except JsError (List Nat × List Nat)
  | 0, bs => .ok ([], bs)
  | _ + 1, [] => .error .endOfBuffer
  | n + 1, b :: bs =>
    (readBytesN n bs).map fun r => (b :: r.1, r.2)

/-- `readU8`: one byte, a JS number. -/
def readU8 (bs : List Nat) : Except JsError (JsValue × List Nat) :=
  (readBytesN 1 bs).map fun r => (.num (ofBytesLE r.1), r.2)

/-- `readU16`: two bytes little-endian, a JS number. -/
def readU16 (bs : List Nat) : Except JsError (JsValue × List Nat) :=
  (readBytesN 2 bs).map fun r => (.num (ofBytesLE r.1), r.2)

/-- `readU64`: eight bytes little-endian, returned as a `BN` object. -/
def readU64 (bs : List Nat) : Except JsError (JsValue × List Nat) :=
  (readBytesN 8 bs).map fun r => (.bn (ofBytesLE r.1), r.2)

/-- `readString`: a 4-byte little-endian byte length, then that many UTF-8
bytes decoded to a JS string. -/
def readString (bs : List Nat) : Except JsError (JsValue × List Nat) :=
  (readBytesN 4 bs).bind fun r =>
    (readBytesN (ofBytesLE r.1) r.2).map fun r2 => (.str (utf8DecodeBytes r2.1), r2.2)

def deserializeField : BorshFieldType → List Nat → Except JsError (JsValue × List Nat)
  | .u8, bs => readU8 bs
  | .u16, bs => readU16 bs
  | .u64, bs => readU64 bs
  | .string, bs => readString bs

/-- Read every schema field in order, producing the parsed field map. -/
def deserializeFields :
    List (String × BorshFieldType) → List Nat →
      Except JsError (List (String × JsValue) × List Nat)
  | [], bs => .ok ([], bs)
  | (name, ty) :: fs, bs =>
    (deserializeField ty bs).bind fun r =>
      (deserializeFields fs r.2).map fun r2 => ((name, r.1) :: r2.1, r2.2)

/-- Lookup in the parsed field map (`fields.someName` in the constructor);
a missing key is `undefined`. -/
def lookupField (l : List (String × JsValue)) (name : String) : JsValue :=
  match l.find? (fun p => p.1 = name) with
  | some p => p.2
  | none => .undefined

/-- `new AgreementAccount(fields)` applied to the parsed map: the constructor
reads the class's own property names — the map's `'pub status'` entry is
never consulted, so `status` ends up `undefined`. -/
def agreementFromFields (l : List (String × JsValue)) : AgreementAccount :=
  { status := lookupField l "status"
    owner_pubkey := lookupField l "owner_pubkey"
    tenant_pubkey := lookupField l "tenant_pubkey"
    security_escrow_pubkey := lookupField l "security_escrow_pubkey"
    security_deposit := lookupField l "security_deposit"
    rent_amount := lookupField l "rent_amount"
    duration := lookupField l "duration"
    remaining_payments := lookupField l "remaining_payments"
    start_month := lookupField l "start_month"
    start_year := lookupField l "start_year"
    duration_extension_request := lookupField l "duration_extension_request" }

/-- `borsh.deserialize(AgreementSchema, AgreementAccount, buffer)`. -/
def deserializeAgreement (bs : List Nat) : Except JsError AgreementAccount :=
  (deserializeFields AgreementSchemaFields bs).bind fun r =>
    if r.2.isEmpty then .ok (agreementFromFields r.1) else .error .trailingBytes

/-- `decode ∘ encode` on an `AgreementAccount`. -/
def roundTrip (a : AgreementAccount) : Except JsError AgreementAccount :=
  (serializeAgreement a).bind deserializeAgreement

/-! ## Address derivation and account provisioning (`checkProgram`, lines 277–342)

`PublicKey.createWithSeed(base, seed, programId)` is
`sha256(base.toBuffer() ++ Buffer.from(seed) ++ programId.toBuffer())`; the
digest is an opaque cryptographic function, so the model takes it as a
parameter `h`.  The network boundary (`connection.getAccountInfo`,
`connection.getMinimumBalanceForRentExemption`, `fs.existsSync`) is an
explicit environment value.  The program id comes from a keypair file and the
fee payer from `establishPayer`; both enter as parameters.  The source uses
the module-level `AGREEMENT_SIZE` for `space` and for the rent query; the
model passes that size as the parameter `size` (the module-level computation
itself throws, see `AGREEMENT_SIZE` above). -/

/-- `PublicKey.createWithSeed`: digest of the base key's 32 bytes, the seed's
UTF-8 bytes and the program id's 32 bytes. -/
def createWithSeed (h : List Nat → Nat) (base : Nat) (seed : String) (programId : Nat) : Nat :=
  h (toBytesBE 32 base ++ utf8Bytes seed ++ toBytesBE 32 programId)

/-- What the client reads from `getAccountInfo`: presence plus the
`executable` flag it inspects for the program account. -/
structure AccountInfo where
  executable : Bool
deriving DecidableEq

/-- The network boundary and file system, as one invocation observes them. -/
structure NetworkEnv where
  accountInfo : Nat → Option AccountInfo
  minBalanceForRentExemption : Nat → Nat
  programFileExists : Bool

/-- The three `throw new Error(...)` exits of `checkProgram`. -/
inductive CheckError where
  | programNeedsDeploy | programNeedsBuild | programNotExecutable
deriving DecidableEq

/-- Argument record of `SystemProgram.createAccountWithSeed`; `programId` is
the owner of the account being created. -/
structure CreateAccountWithSeedParams where
  fromPubkey : Nat
  basePubkey : Nat
  seed : String
  newAccountPubkey : Nat
  lamports : Nat
  space : Nat
  programId : Nat
deriving DecidableEq

/-- Hard-coded owner identity (line 305). -/
def OWNER_PUBKEY : Nat := b58ToNat ("EJBCNzigNdKMiCueXNaYn3CccMJqmB8DLPZKgfeTWQrh")

/-- Hard-coded tenant identity (line 306). -/
def TENANT_PUBKEY : Nat := b58ToNat ("EGikG1URSBTi3Dc2AHwTV4HBDWu1KmbcD63rTbYWv9Cu")

/-- `checkProgram`: verify the program account, derive the agreement address,
and create the agreement account only when `getAccountInfo` at the derived
address returned `null`.  The result carries the derived address and the list
of `createAccountWithSeed` instructions submitted (empty or a singleton). -/
def checkProgram (h : List Nat → Nat) (payer programId ownerK tenantK size : Nat)
    (env : NetworkEnv) : Except CheckError (Nat × List CreateAccountWithSeedParams) :=
  match env.accountInfo programId with
  | none =>
    .error (if env.programFileExists then .programNeedsDeploy else .programNeedsBuild)
  | some info =>
    if info.executable = false then .error .programNotExecutable
    else
      match env.accountInfo (createWithSeed h payer (AGREEMENT_SEED ownerK tenantK) programId) with
      | some _ => .ok (createWithSeed h payer (AGREEMENT_SEED ownerK tenantK) programId, [])
      | none =>
        .ok (createWithSeed h payer (AGREEMENT_SEED ownerK tenantK) programId,
          [{ fromPubkey := payer, basePubkey := payer,
             seed := AGREEMENT_SEED ownerK tenantK,
             newAccountPubkey := createWithSeed h payer (AGREEMENT_SEED ownerK tenantK) programId,
             lamports := env.minBalanceForRentExemption size,
             space := size, programId := programId }])

/-- The create-account instructions one `checkProgram` invocation submits
(none when it throws before reaching the creation branch). -/
def checkProgramTxs (h : List Nat → Nat) (payer programId ownerK tenantK size : Nat)
    (env : NetworkEnv) : List CreateAccountWithSeedParams :=
  match checkProgram h payer programId ownerK tenantK size env with
  | .ok r => r.2
  | .error _ => []

/-! ## The initialize-agreement instruction (`initContract`, lines 348–386) -/

/-- One entry of a `TransactionInstruction`'s account list. -/
structure AccountMeta where
  pubkey : Nat
  isSigner : Bool
  isWritable : Bool
deriving DecidableEq

structure TransactionInstruction where
  keys : List AccountMeta
  programId : Nat
  data : List Nat
deriving DecidableEq

/-- `SYSVAR_RENT_PUBKEY` (`@solana/web3.js`). -/
def SYSVAR_RENT_PUBKEY : Nat := b58ToNat ("SysvarRent111111111111111111111111111111111")

/-- `initContract`: the instruction it builds and submits.  The argument
constants are the hard-coded test values (`deposit = 1000`, `rentAmount =
500`, `duration = 11`, `start_month = 1`, `start_year = 2022`); the second
account slot and the third 32-byte data argument are both `agreementPubkey`
(the `escrowPubkey` TODO/DEBUG comments in the source).  `BN#toArray('le',
n)` zero-pads to `n` **bytes**, so the widths below are 64, 64, 8, 8 and 16
bytes. -/
def initContract (ownerK tenantK agreementK programId : Nat) : TransactionInstruction :=
  { keys := [⟨agreementK, false, true⟩, ⟨agreementK, false, true⟩,
             ⟨SYSVAR_RENT_PUBKEY, false, false⟩],
    programId := programId,
    data := 0 :: (toBytesBE 32 ownerK ++ (toBytesBE 32 tenantK ++ (toBytesBE 32 agreementK ++
      (toBytesLE 64 1000 ++ (toBytesLE 64 500 ++ (toBytesLE 8 11 ++
      (toBytesLE 8 1 ++ toBytesLE 16 2022))))))) }

theorem toBytesLE_length : ∀ n v, (toBytesLE n v).length = n := by
  intro n
  induction n with
  | zero => intro v; rfl
  | succ k ih => intro v; simp [toBytesLE, ih]

theorem toBytesBE_length (n v : Nat) : (toBytesBE n v).length = n := by
  simp [toBytesBE, toBytesLE_length]

theorem ofBytesLE_toBytesLE : ∀ n v, ofBytesLE (toBytesLE n v) = v % 256 ^ n := by
  intro n
  induction n with
  | zero => intro v; simp [toBytesLE, ofBytesLE, Nat.mod_one]
  | succ k ih =>
    intro v
    have h1 : v / 256 % 256 ^ k = v % (256 * 256 ^ k) / 256 :=
      (Nat.mod_mul_right_div_self v 256 (256 ^ k)).symm
    have h2 : v % (256 * 256 ^ k) % 256 = v % 256 := by
      exact Nat.mod_mod_of_dvd v ⟨256 ^ k, rfl⟩
    have hpow : (256 : Nat) ^ (k + 1) = 256 * 256 ^ k := by
      rw [pow_succ, Nat.mul_comm]
    simp only [toBytesLE, ofBytesLE, List.foldr_cons] at ih ⊢
    rw [ih, hpow, h1, ← h2]
    omega

theorem toBytesLE_inj {n v₁ v₂ : Nat} (h1 : v₁ < 256 ^ n) (h2 : v₂ < 256 ^ n)
    (h : toBytesLE n v₁ = toBytesLE n v₂) : v₁ = v₂ := by
  have := congrArg ofBytesLE h
  rw [ofBytesLE_toBytesLE, ofBytesLE_toBytesLE, Nat.mod_eq_of_lt h1,
    Nat.mod_eq_of_lt h2] at this
  exact this

theorem toBytesBE_inj {n v₁ v₂ : Nat} (h1 : v₁ < 256 ^ n) (h2 : v₂ < 256 ^ n)
    (h : toBytesBE n v₁ = toBytesBE n v₂) : v₁ = v₂ :=
  toBytesLE_inj h1 h2 (List.reverse_injective h)

theorem ofD58_append_singleton (l : List Nat) (d : Nat) :
    ofD58 (l ++ [d]) = ofD58 l * 58 + d := by
  simp [ofD58, List.foldl_append]

theorem ofD58_b58digitsAux : ∀ f v, v < 58 ^ f → ofD58 (b58digitsAux f v) = v := by
  intro f
  induction f with
  | zero => intro v hv; interval_cases v; rfl
  | succ k ih =>
    intro v hv
    by_cases h0 : v = 0
    · subst h0; simp [b58digitsAux, ofD58]
    · have hdiv : v / 58 < 58 ^ k := by
        rw [Nat.div_lt_iff_lt_mul (by norm_num : 0 < 58)]
        calc v < 58 ^ (k + 1) := hv
          _ = 58 ^ k * 58 := by rw [pow_succ]
      rw [b58digitsAux, if_neg h0, ofD58_append_singleton, ih _ hdiv]
      omega

theorem b58digitsAux_eq_nil : ∀ f, b58digitsAux f 0 = [] := by
  intro f; cases f <;> simp [b58digitsAux]

theorem b58digitsAux_ne_nil (f v : Nat) (hv : 0 < v) :
    b58digitsAux (f + 1) v ≠ [] := by
  simp [b58digitsAux, Nat.pos_iff_ne_zero.mp hv]

theorem b58digitsAux_lt : ∀ f v d, d ∈ b58digitsAux f v → d < 58 := by
  intro f
  induction f with
  | zero => intro v d hd; simp [b58digitsAux] at hd
  | succ k ih =>
    intro v d hd
    by_cases h0 : v = 0
    · subst h0; simp [b58digitsAux] at hd
    · rw [b58digitsAux, if_neg h0] at hd
      rcases List.mem_append.mp hd with h | h
      · exact ih _ _ h
      · simp at h; subst h; exact Nat.mod_lt _ (by norm_num)

theorem b58digitsAux_head_pos :
    ∀ f v, 0 < v → v < 58 ^ f → ∀ d, (b58digitsAux f v).head? = some d → 0 < d := by
  intro f
  induction f with
  | zero => intro v hv hlt; omega
  | succ k ih =>
    intro v hv hlt d hd
    rw [b58digitsAux, if_neg (Nat.pos_iff_ne_zero.mp hv)] at hd
    by_cases hq : v / 58 = 0
    · rw [hq, b58digitsAux_eq_nil] at hd
      simp at hd
      have : v < 58 := by omega
      omega
    · have hq' : 0 < v / 58 := Nat.pos_of_ne_zero hq
      have hdiv : v / 58 < 58 ^ k := by
        rw [Nat.div_lt_iff_lt_mul (by norm_num : 0 < 58)]
        calc v < 58 ^ (k + 1) := hlt
          _ = 58 ^ k * 58 := by rw [pow_succ]
      have hk : k ≠ 0 := by
        intro h; subst h
        simp at hdiv
        omega
      obtain ⟨k', rfl⟩ := Nat.exists_eq_succ_of_ne_zero hk
      rw [List.head?_append_of_ne_nil _ (b58digitsAux_ne_nil k' _ hq')] at hd
      exact ih _ hq' hdiv d hd

theorem b58digit_inj :
    ∀ d₁, d₁ < 58 → ∀ d₂, d₂ < 58 → b58digit d₁ = b58digit d₂ → d₁ = d₂ := by decide

theorem b58digit_ne_one : ∀ d, d < 58 → 0 < d → b58digit d ≠ '1' := by decide

theorem map_b58digit_inj :
    ∀ l₁ l₂ : List Nat, (∀ d ∈ l₁, d < 58) → (∀ d ∈ l₂, d < 58) →
      l₁.map b58digit = l₂.map b58digit → l₁ = l₂ := by
  intro l₁
  induction l₁ with
  | nil => intro l₂ _ _ h; cases l₂ <;> simp_all
  | cons a t ih =>
    intro l₂ hb₁ hb₂ h
    cases l₂ with
    | nil => simp at h
    | cons a' t' =>
      simp only [List.map_cons, List.cons.injEq] at h
      have ha : a = a' :=
        b58digit_inj a (hb₁ a (by simp)) a' (hb₂ a' (by simp)) h.1
      have ht : t = t' :=
        ih t' (fun d hd => hb₁ d (by simp [hd])) (fun d hd => hb₂ d (by simp [hd])) h.2
      rw [ha, ht]

/-- Cancelling a `'1'`-padding in front of a string whose remainder does not
begin with `'1'` recovers both the padding length and the remainder. -/
theorem ones_pad_eq :
    ∀ m n : Nat, ∀ xs ys : List Char, xs.head? ≠ some '1' → ys.head? ≠ some '1' →
      List.replicate m '1' ++ xs = List.replicate n '1' ++ ys → m = n ∧ xs = ys := by
  intro m
  induction m with
  | zero =>
    intro n xs ys hx hy h
    cases n with
    | zero => simpa using h
    | succ k =>
      simp only [List.replicate_succ, List.replicate_zero, List.nil_append,
        List.cons_append] at h
      rw [h] at hx
      simp at hx
  | succ k ih =>
    intro n xs ys hx hy h
    cases n with
    | zero =>
      simp only [List.replicate_succ, List.replicate_zero, List.nil_append,
        List.cons_append] at h
      rw [← h] at hy
      simp at hy
    | succ l =>
      simp only [List.replicate_succ, List.cons_append, List.cons.injEq] at h
      obtain ⟨h1, h2⟩ := ih l xs ys hx hy h.2
      exact ⟨by omega, h2⟩

theorem pow_2_256_lt : (2 : Nat) ^ 256 < 58 ^ 44 := by norm_num

theorem b58digits_map_head (v : Nat) (hv : v < 2 ^ 256) :
    ((b58digits v).map b58digit).head? ≠ some '1' := by
  by_cases h0 : v = 0
  · subst h0
    decide
  · have hbound : v < 58 ^ 44 := lt_trans hv pow_2_256_lt
    have hpos : 0 < v := Nat.pos_of_ne_zero h0
    intro hcontra
    rw [List.head?_map] at hcontra
    cases hd : (b58digits v).head? with
    | none => rw [hd] at hcontra; simp at hcontra
    | some d =>
      rw [hd] at hcontra
      simp at hcontra
      have hdpos : 0 < d := b58digitsAux_head_pos 44 v hpos hbound d hd
      have hdlt : d < 58 := by
        have hmem : d ∈ b58digits v := by
          rcases List.head?_eq_some_iff.mp hd with ⟨t, ht⟩
          rw [ht]; simp
        exact b58digitsAux_lt 44 v d hmem
      exact b58digit_ne_one d hdlt hdpos hcontra

theorem pubkeyChars_inj {v₁ v₂ : Nat} (h₁ : v₁ < 2 ^ 256) (h₂ : v₂ < 2 ^ 256)
    (h : pubkeyChars v₁ = pubkeyChars v₂) : v₁ = v₂ := by
  unfold pubkeyChars at h
  obtain ⟨-, hmap⟩ := ones_pad_eq _ _ _ _
    (b58digits_map_head v₁ h₁) (b58digits_map_head v₂ h₂) h
  have hdig : b58digits v₁ = b58digits v₂ :=
    map_b58digit_inj _ _ (fun d hd => b58digitsAux_lt 44 v₁ d hd)
      (fun d hd => b58digitsAux_lt 44 v₂ d hd) hmap
  have e₁ := ofD58_b58digitsAux 44 v₁ (lt_trans h₁ pow_2_256_lt)
  have e₂ := ofD58_b58digitsAux 44 v₂ (lt_trans h₂ pow_2_256_lt)
  rw [← e₁, ← e₂]
  unfold b58digits at hdig
  rw [hdig]

theorem pubkeyStr_inj {v₁ v₂ : Nat} (h₁ : v₁ < 2 ^ 256) (h₂ : v₂ < 2 ^ 256)
    (h : pubkeyStr v₁ = pubkeyStr v₂) : v₁ = v₂ :=
  pubkeyChars_inj h₁ h₂ (congrArg String.data h)

theorem string_append_data (s t : String) : (s ++ t).data = s.data ++ t.data := by
  cases s; cases t; rfl

theorem AGREEMENT_SEED_data (ownerK tenantK : Nat) :
    (AGREEMENT_SEED ownerK tenantK).data =
      ("agreement").data ++ pubkeyChars ownerK ++ pubkeyChars tenantK := by
  unfold AGREEMENT_SEED
  rw [string_append_data, string_append_data]
  rfl

theorem take_append_of_length {α : Type} {l₁ : List α} {n : Nat} (h : l₁.length = n)
    (l₂ : List α) : (l₁ ++ l₂).take n = l₁ := by
  subst h
  induction l₁ with
  | nil => rfl
  | cons a t ih => simp [ih]

theorem drop_append_of_length {α : Type} {l₁ : List α} {n : Nat} (h : l₁.length = n)
    (l₂ : List α) : (l₁ ++ l₂).drop n = l₂ := by
  subst h
  induction l₁ with
  | nil => rfl
  | cons a t ih => simp [ih]

/-! ## Claim theorems -/

theorem getField_pub_status (a : AgreementAccount) : a.getField "pub status" = .undefined := rfl

theorem getField_owner_pubkey (a : AgreementAccount) :
    a.getField "owner_pubkey" = a.owner_pubkey := rfl

/-- Encoding any account whose `owner_pubkey` holds a `PublicKey` object (as
the class guarantees) throws: the status byte (read from the nonexistent
property `'pub status'`) silently encodes `0`, and then `writeString` rejects
the `PublicKey`. -/
theorem serializeAgreement_typeError (a : AgreementAccount) (k : Nat)
    (hk : a.owner_pubkey = .pubkey k) : serializeAgreement a = .error .typeError := by
  simp only [serializeAgreement, AgreementSchemaFields, List.foldl_cons, List.foldl_nil,
    getField_pub_status, getField_owner_pubkey]
  rw [hk]
  rfl

/-- C2: the claim says encoding any valid field assignment yields a buffer of
one fixed canonical length.  In fact encoding never yields a buffer at all:
for every class-valid `AgreementAccount` the serializer throws a `TypeError`
(the identity fields are declared borsh `'string'` but hold `PublicKey`
objects), so the canonical size (`AGREEMENT_SIZE`) is itself an error and no
fixed-length buffer exists. -/
theorem encode_throws_for_valid_records (a : AgreementAccount)
    (hv : ValidAgreement a) : serializeAgreement a = .error .typeError := by
  obtain ⟨-, ⟨k, hk⟩, -⟩ := hv
  exact serializeAgreement_typeError a k hk

/-- C2 witness: the canonical zero-valued instance (`new AgreementAccount()`)
is class-valid and its encoding is the `TypeError`. -/
theorem encode_throws_witness :
    ValidAgreement zeroAgreement ∧ serializeAgreement zeroAgreement = .error .typeError :=
  ⟨⟨⟨0, rfl⟩, ⟨0, rfl⟩, ⟨0, rfl⟩, ⟨0, rfl⟩, ⟨0, rfl⟩, ⟨0, rfl⟩, ⟨0, rfl⟩, ⟨0, rfl⟩,
    ⟨0, rfl⟩, ⟨0, rfl⟩, ⟨0, rfl⟩⟩,
   encode_throws_for_valid_records zeroAgreement
     ⟨⟨0, rfl⟩, ⟨0, rfl⟩, ⟨0, rfl⟩, ⟨0, rfl⟩, ⟨0, rfl⟩, ⟨0, rfl⟩, ⟨0, rfl⟩, ⟨0, rfl⟩,
      ⟨0, rfl⟩, ⟨0, rfl⟩, ⟨0, rfl⟩⟩⟩

/-- C3: the round-trip law `decode(encode(x)) = x` fails for every
class-valid `x`: the composite is the encoder's `TypeError`, never `ok x`. -/
theorem roundtrip_fails_for_valid_records (a : AgreementAccount)
    (hv : ValidAgreement a) : roundTrip a = .error .typeError := by
  obtain ⟨-, ⟨k, hk⟩, -⟩ := hv
  unfold roundTrip
  rw [serializeAgreement_typeError a k hk]
  rfl

/-- C3 witness: the round trip on the zero-valued instance is the
`TypeError` (in particular it is not `ok zeroAgreement`). -/
theorem roundtrip_fails_witness : roundTrip zeroAgreement = .error .typeError :=
  roundtrip_fails_for_valid_records zeroAgreement
    ⟨⟨0, rfl⟩, ⟨0, rfl⟩, ⟨0, rfl⟩, ⟨0, rfl⟩, ⟨0, rfl⟩, ⟨0, rfl⟩, ⟨0, rfl⟩, ⟨0, rfl⟩,
     ⟨0, rfl⟩, ⟨0, rfl⟩, ⟨0, rfl⟩⟩

/-- C6: decoding enforces no canonical total length.  Because the three
identity fields are length-prefixed borsh strings, buffers of many different
total lengths parse successfully: a 35-byte all-zero buffer and a 36-byte
buffer (owner string of length 1) both decode to `ok`, so it is impossible
that every length but one canonical one fails with a malformed-record
error. -/
theorem decode_accepts_two_distinct_lengths :
    (deserializeAgreement (List.replicate 35 0)).toOption.isSome = true ∧
    (deserializeAgreement (0 :: 1 :: 0 :: 0 :: 0 :: 65 :: List.replicate 30 0)).toOption.isSome
      = true ∧
    (List.replicate 35 (0 : Nat)).length ≠
      (0 :: 1 :: 0 :: 0 :: 0 :: 65 :: List.replicate 30 (0 : Nat)).length := by
  decide

/-- C1: the instruction data buffer `initContract` actually builds.  It does
begin with discriminant `0x00`, the owner's 32 bytes and the tenant's 32
bytes — but `BN#toArray('le', n)` pads to `n` bytes, so deposit and rent
occupy 64 bytes each (not 8), duration and start month 8 bytes each (not 1),
and start year 16 bytes (not 2): the whole buffer is 257 bytes, not the
1 + 32·3 + 8·2 + 1·2 + 2 = 117 bytes the claimed widths would give.  The
conjuncts give the exact layout, the total length, and the slices at offsets
1, 33 and 97. -/
theorem initContract_data_widths (ownerK tenantK agreementK programId : Nat) :
    (initContract ownerK tenantK agreementK programId).data
      = 0 :: (toBytesBE 32 ownerK ++ (toBytesBE 32 tenantK ++ (toBytesBE 32 agreementK ++
        (toBytesLE 64 1000 ++ (toBytesLE 64 500 ++ (toBytesLE 8 11 ++
        (toBytesLE 8 1 ++ toBytesLE 16 2022))))))) ∧
    (initContract ownerK tenantK agreementK programId).data.length = 257 ∧
    ((initContract ownerK tenantK agreementK programId).data.drop 1).take 32
      = toBytesBE 32 ownerK ∧
    ((initContract ownerK tenantK agreementK programId).data.drop 33).take 32
      = toBytesBE 32 tenantK ∧
    ((initContract ownerK tenantK agreementK programId).data.drop 97).take 64
      = toBytesLE 64 1000 := by
  refine ⟨rfl, ?_, ?_, ?_, ?_⟩
  · simp [initContract, toBytesBE_length, toBytesLE_length]
  · simp only [initContract, List.drop_succ_cons, List.drop_zero]
    exact take_append_of_length (toBytesBE_length 32 ownerK) _
  · simp only [initContract, List.drop_succ_cons]
    rw [drop_append_of_length (toBytesBE_length 32 ownerK)]
    exact take_append_of_length (toBytesBE_length 32 tenantK) _
  · simp only [initContract, List.drop_succ_cons]
    rw [← List.append_assoc, ← List.append_assoc]
    rw [drop_append_of_length (by simp [toBytesBE_length])]
    exact take_append_of_length (toBytesLE_length 64 1000) _

/-- C9: in the instruction `initContract` builds, the second account slot
(the one meant for the escrow account) holds the agreement account's own
derived address, writable and not a signer, and the 32-byte escrow-identity
argument in the data buffer (offsets 65–96) is likewise the agreement
address — for every choice of inputs, so no other address ever occupies the
escrow position. -/
theorem escrow_slot_holds_agreement_address (ownerK tenantK agreementK programId : Nat) :
    (initContract ownerK tenantK agreementK programId).keys[1]?
      = some ⟨agreementK, false, true⟩ ∧
    ((initContract ownerK tenantK agreementK programId).data.drop 65).take 32
      = toBytesBE 32 agreementK := by
  refine ⟨rfl, ?_⟩
  simp only [initContract, List.drop_succ_cons]
  rw [← List.append_assoc]
  rw [drop_append_of_length (by simp [toBytesBE_length])]
  exact take_append_of_length (toBytesBE_length 32 agreementK) _

/-- C4 counterexample: two distinct (owner, tenant) pairs of 32-byte
identities whose seed strings coincide.  `base58` strings of 32-byte keys
vary in length, and the seed concatenates them with no separator: with
`S` the 43-character string of `2 ^ 248`, the pair
`(2 ^ 248, 58 ^ 43 + 2 ^ 248)` gives `'agreement' ++ S ++ ('2' ++ S)` and the
distinct pair `(58 * 2 ^ 248 + 1, 2 ^ 248)` gives
`'agreement' ++ (S ++ '2') ++ S` — the same string, so the derived addresses
(same base, same seed, same program) coincide as well. -/
theorem seed_collision_exists :
    ((2 : Nat) ^ 248, 58 ^ 43 + 2 ^ 248) ≠ ((58 * 2 ^ 248 + 1 : Nat), (2 : Nat) ^ 248) ∧
    AGREEMENT_SEED (2 ^ 248) (58 ^ 43 + 2 ^ 248)
      = AGREEMENT_SEED (58 * 2 ^ 248 + 1) (2 ^ 248) ∧
    (2 : Nat) ^ 248 < 2 ^ 256 ∧ 58 ^ 43 + 2 ^ 248 < (2 : Nat) ^ 256 ∧
    58 * 2 ^ 248 + 1 < (2 : Nat) ^ 256 := by
  refine ⟨by decide, by decide, by decide, by decide, by decide⟩

/-- C4 (amended): distinct (owner, tenant) pairs are only guaranteed
distinct seed strings when the owners' base58 string forms have equal length
(in particular the concatenation is then unambiguous); without that
restriction the seeds can collide (`seed_collision_exists`). -/
theorem seed_distinct_of_eq_owner_str_length
    (o₁ t₁ o₂ t₂ : Nat) (ho₁ : o₁ < 2 ^ 256) (ht₁ : t₁ < 2 ^ 256)
    (ho₂ : o₂ < 2 ^ 256) (ht₂ : t₂ < 2 ^ 256)
    (hne : (o₁, t₁) ≠ (o₂, t₂))
    (hlen : (pubkeyChars o₁).length = (pubkeyChars o₂).length) :
    AGREEMENT_SEED o₁ t₁ ≠ AGREEMENT_SEED o₂ t₂ := by
  intro heq
  have hdata := congrArg String.data heq
  rw [AGREEMENT_SEED_data, AGREEMENT_SEED_data, List.append_assoc, List.append_assoc] at hdata
  have h2 := List.append_cancel_left hdata
  obtain ⟨ho, ht⟩ := List.append_inj h2 hlen
  exact hne (by rw [pubkeyChars_inj ho₁ ho₂ ho, pubkeyChars_inj ht₁ ht₂ ht])

/-- C4 witness: keys 2 and 3 have base58 strings of equal length, so the two
distinct pairs (2, 5) and (3, 5) get distinct seeds. -/
theorem seed_distinct_witness : AGREEMENT_SEED 2 5 ≠ AGREEMENT_SEED 3 5 :=
  seed_distinct_of_eq_owner_str_length 2 5 3 5 (by norm_num) (by norm_num) (by norm_num)
    (by norm_num) (by decide) (by decide)

/-- Whenever `checkProgram` returns, the address it returns is the seeded
derivation from the payer's key. -/
theorem checkProgram_ok_addr {h : List Nat → Nat}
    {payer programId ownerK tenantK size : Nat} {env : NetworkEnv}
    {r : Nat × List CreateAccountWithSeedParams}
    (hr : checkProgram h payer programId ownerK tenantK size env = .ok r) :
    r.1 = createWithSeed h payer (AGREEMENT_SEED ownerK tenantK) programId := by
  unfold checkProgram at hr
  split at hr
  · simp at hr
  · split at hr
    · simp at hr
    · split at hr
      · cases hr; rfl
      · cases hr; rfl

/-- C5: one invocation of the provisioning step submits at most one
create-account instruction, and submits none at all when the metadata query
at the derived agreement address reports an existing account — re-running
against an existing account is a no-op. -/
theorem provisioner_no_create_when_exists (h : List Nat → Nat)
    (payer programId ownerK tenantK size : Nat) (env : NetworkEnv) :
    (checkProgramTxs h payer programId ownerK tenantK size env).length ≤ 1 ∧
    (∀ info, env.accountInfo
        (createWithSeed h payer (AGREEMENT_SEED ownerK tenantK) programId) = some info →
      checkProgramTxs h payer programId ownerK tenantK size env = []) := by
  cases hpi : env.accountInfo programId with
  | none =>
    exact ⟨by simp [checkProgramTxs, checkProgram, hpi],
      fun info _ => by simp [checkProgramTxs, checkProgram, hpi]⟩
  | some pinfo =>
    by_cases hex : pinfo.executable = false
    · exact ⟨by simp [checkProgramTxs, checkProgram, hpi, hex],
        fun info _ => by simp [checkProgramTxs, checkProgram, hpi, hex]⟩
    · cases hai : env.accountInfo
        (createWithSeed h payer (AGREEMENT_SEED ownerK tenantK) programId) with
      | some ainfo =>
        exact ⟨by simp [checkProgramTxs, checkProgram, hpi, hex, hai],
          fun info _ => by simp [checkProgramTxs, checkProgram, hpi, hex, hai]⟩
      | none =>
        refine ⟨by simp [checkProgramTxs, checkProgram, hpi, hex, hai], ?_⟩
        intro info hinfo
        simp [hai] at hinfo

/-- C5 witness: a network whose program account (address 3) is executable and
whose derived agreement address (7, for the constant digest) already holds an
account: no instruction is submitted, and the count is at most one. -/
theorem provisioner_no_create_witness :
    checkProgramTxs (fun _ => 7) 5 3 1 2 9
      { accountInfo := fun a => if a = 3 then some ⟨true⟩
          else if a = 7 then some ⟨false⟩ else none,
        minBalanceForRentExemption := fun _ => 0, programFileExists := true } = [] ∧
    (checkProgramTxs (fun _ => 7) 5 3 1 2 9
      { accountInfo := fun a => if a = 3 then some ⟨true⟩
          else if a = 7 then some ⟨false⟩ else none,
        minBalanceForRentExemption := fun _ => 0, programFileExists := true }).length ≤ 1 :=
  ⟨(provisioner_no_create_when_exists (fun _ => 7) 5 3 1 2 9
      { accountInfo := fun a => if a = 3 then some ⟨true⟩
          else if a = 7 then some ⟨false⟩ else none,
        minBalanceForRentExemption := fun _ => 0, programFileExists := true }).2
      ⟨false⟩ rfl,
   (provisioner_no_create_when_exists (fun _ => 7) 5 3 1 2 9
      { accountInfo := fun a => if a = 3 then some ⟨true⟩
          else if a = 7 then some ⟨false⟩ else none,
        minBalanceForRentExemption := fun _ => 0, programFileExists := true }).1⟩

/-- C7: when the program account exists and is executable and the metadata
query at the derived address reports no account, the submitted create-account
instruction carries exactly: the payer as funder (and as derivation base),
the derived agreement address as the new account, the program identity as
owner, the canonical size as allocated length, and the rent-exemption
minimum for that same size as balance. -/
theorem create_instruction_fields (h : List Nat → Nat)
    (payer programId ownerK tenantK size : Nat) (env : NetworkEnv) (pinfo : AccountInfo)
    (hp : env.accountInfo programId = some pinfo) (hex : pinfo.executable = true)
    (hnone : env.accountInfo
      (createWithSeed h payer (AGREEMENT_SEED ownerK tenantK) programId) = none) :
    checkProgram h payer programId ownerK tenantK size env
      = .ok (createWithSeed h payer (AGREEMENT_SEED ownerK tenantK) programId,
        [{ fromPubkey := payer, basePubkey := payer,
           seed := AGREEMENT_SEED ownerK tenantK,
           newAccountPubkey := createWithSeed h payer (AGREEMENT_SEED ownerK tenantK) programId,
           lamports := env.minBalanceForRentExemption size,
           space := size, programId := programId }]) := by
  unfold checkProgram
  rw [hp]
  simp [hex, hnone]

/-- C7 witness: concrete network with no account at the derived address 7;
the returned instruction funds with payer 5, creates account 7 with owner
program 3, 9 bytes of space and the rent minimum 11 returned for 9 bytes. -/
theorem create_instruction_witness :
    checkProgram (fun _ => 7) 5 3 1 2 9
      { accountInfo := fun a => if a = 3 then some ⟨true⟩ else none,
        minBalanceForRentExemption := fun s => s + 2, programFileExists := true }
      = .ok (7, [(⟨5, 5, AGREEMENT_SEED 1 2, 7, 11, 9, 3⟩ : CreateAccountWithSeedParams)]) :=
  create_instruction_fields (fun _ => 7) 5 3 1 2 9
    { accountInfo := fun a => if a = 3 then some ⟨true⟩ else none,
      minBalanceForRentExemption := fun s => s + 2, programFileExists := true }
    ⟨true⟩ rfl rfl rfl

/-- C8: the derived agreement address is independent of the network state:
two invocations of `checkProgram` with the same digest, payer, program id and
participant identities return the same address whatever each invocation's
environment answers — derivation is a pure function of (base, seed, program
identity) with no hidden inputs. -/
theorem derived_address_env_independent (h : List Nat → Nat)
    (payer programId ownerK tenantK size : Nat) (env₁ env₂ : NetworkEnv)
    (r₁ r₂ : Nat × List CreateAccountWithSeedParams)
    (h₁ : checkProgram h payer programId ownerK tenantK size env₁ = .ok r₁)
    (h₂ : checkProgram h payer programId ownerK tenantK size env₂ = .ok r₂) :
    r₁.1 = r₂.1 := by
  rw [checkProgram_ok_addr h₁, checkProgram_ok_addr h₂]

/-- C8 witness: the address from a run against a network where the account
already exists equals the address from a run against a network where it does
not. -/
theorem derived_address_env_witness :
    ((7 : Nat), ([] : List CreateAccountWithSeedParams)).1
      = ((7 : Nat), [(⟨5, 5, AGREEMENT_SEED 1 2, 7, 11, 9, 3⟩
          : CreateAccountWithSeedParams)]).1 :=
  derived_address_env_independent (fun _ => 7) 5 3 1 2 9
    { accountInfo := fun a => if a = 3 then some ⟨true⟩
        else if a = 7 then some ⟨false⟩ else none,
      minBalanceForRentExemption := fun _ => 0, programFileExists := true }
    { accountInfo := fun a => if a = 3 then some ⟨true⟩ else none,
      minBalanceForRentExemption := fun s => s + 2, programFileExists := true }
    (7, []) (7, [⟨5, 5, AGREEMENT_SEED 1 2, 7, 11, 9, 3⟩]) rfl rfl

/-- C10: (i) the address `checkProgram` derives uses the fee payer's public
key as the base of derivation — the digest input is the payer's 32 bytes,
then the seed's UTF-8 bytes, then the program id's 32 bytes; (ii) for any
injective digest (the idealization of sha256), two different payer base keys
give different addresses for the same seed and program — indeed the digest
inputs already differ in their first 32 bytes. -/
theorem derived_address_uses_payer_base :
    (∀ (h : List Nat → Nat) (payer programId ownerK tenantK size : Nat)
        (env : NetworkEnv) (r : Nat × List CreateAccountWithSeedParams),
      checkProgram h payer programId ownerK tenantK size env = .ok r →
      r.1 = h (toBytesBE 32 payer ++ utf8Bytes (AGREEMENT_SEED ownerK tenantK)
        ++ toBytesBE 32 programId)) ∧
    (∀ h : List Nat → Nat, Function.Injective h →
      ∀ p₁ p₂ seed programId, p₁ < 2 ^ 256 → p₂ < 2 ^ 256 → p₁ ≠ p₂ →
        createWithSeed h p₁ seed programId ≠ createWithSeed h p₂ seed programId) := by
  constructor
  · intro h payer programId ownerK tenantK size env r hr
    exact checkProgram_ok_addr hr
  · intro h hinj p₁ p₂ seed programId hb₁ hb₂ hne heq
    apply hne
    have hl := hinj heq
    have houter := List.append_inj hl (by simp [toBytesBE_length])
    have hinner := List.append_inj houter.1 (by simp [toBytesBE_length])
    have h256 : p₁ < 256 ^ 32 := by rw [(by norm_num : (256 : Nat) ^ 32 = 2 ^ 256)]; exact hb₁
    have h256' : p₂ < 256 ^ 32 := by rw [(by norm_num : (256 : Nat) ^ 32 = 2 ^ 256)]; exact hb₂
    exact toBytesBE_inj h256 h256' hinner.1

/-- C10 witness: with the injective pairing-based digest on byte lists,
payers 0 and 1 derive different addresses for one and the same seed and
program id. -/
theorem derived_address_payer_witness :
    createWithSeed Encodable.encode 0 (AGREEMENT_SEED 1 2) 3
      ≠ createWithSeed Encodable.encode 1 (AGREEMENT_SEED 1 2) 3 :=
  derived_address_uses_payer_base.2 Encodable.encode Encodable.encode_injective 0 1
    (AGREEMENT_SEED 1 2) 3 (by norm_num) (by norm_num) (by norm_num)

end TrustedProperties
